import Mathlib

/-!
Verification development for the `e4e` build server (`src/server/builder.py`,
`src/server/api.py`).

The Python source is shallowly embedded as follows.

* `BuildStatus` / `BuildJob` mirror the dataclasses in `builder.py`.
  Timestamps (`datetime.now().timestamp()`) are modelled as integers
  (seconds); `Path` values are modelled as strings.
* Effects of `BuildQueue._run_build` on the outside world (the config
  staging step, the `timestamp.chk` freshness marker, the exit codes of the
  spawned `emerge` processes, the contents of `/var/cache/binpkgs` before
  and after the build, and I/O errors raised while writing the artifact
  tarball) are supplied by an `Env` oracle record.  Each place where the
  Python code performs such an effect reads the corresponding `Env` field,
  and each mutation the code performs on the job or the world is recorded
  as an `Event`, so temporal claims are statements about the event trace.
* Python exceptions are modelled by `Option String`: `runBuild` returns the
  partially mutated job (Python mutates the `BuildJob` in place, so
  mutations made before the raise survive it) together with the escaped
  exception, and `processJob` embeds the `try/except/finally` of
  `BuildQueue.worker`.
* The worker coroutine awaits `_run_build(job)` to completion before
  dequeuing the next job and is the only task mutating jobs, so the
  sequential composition `workerTrace` over the submitted jobs is the
  faithful embedding of the asyncio worker loop; `beginJob`/`endJob`
  events record the assignments to `BuildQueue.current_job`.
* Log *text* produced inside `_run_build` is not reproduced character by
  character (it contains float formatting); the information content of the
  relevant line (the sync-skip decision together with the measured tree
  age) is recorded as the `Event.logSkipSync` event.  The log-tail logic
  of `BuildJob.get_log_tail` itself is embedded exactly, over arbitrary
  log contents, via an executable model of `str.splitlines` and of the
  Python slice `l[-n:]`.
-/

namespace E4E

/-- The `BuildStatus` enum of `builder.py`. -/
inductive BuildStatus where
  | queued
  | building
  | complete
  | failed
deriving DecidableEq, Repr

/-- A status is terminal when it is `COMPLETE` or `FAILED`. -/
def BuildStatus.isTerminal : BuildStatus → Bool
  | .complete => true
  | .failed => true
  | _ => false

/-- The `BuildJob` dataclass of `builder.py`.  `build_id` is the
`uuid.uuid4()` default, taken here as an arbitrary string parameter;
timestamps are integer seconds, paths are strings. -/
structure BuildJob where
  packages : List String
  config_hash : String
  config_path : String
  build_id : String
  status : BuildStatus := .queued
  packages_built : List String := []
  log : String := ""
  error : Option String := none
  started_at : Option Int := none
  completed_at : Option Int := none
  artifact_path : Option String := none
deriving DecidableEq, Repr

/-- A `BuildJob` as freshly constructed by `submit_build` in `api.py`:
every field other than the four constructor arguments has its dataclass
default. -/
def mkBuildJob (packages : List String) (config_hash : String)
    (config_path : String) (build_id : String) : BuildJob :=
  { packages := packages
    config_hash := config_hash
    config_path := config_path
    build_id := build_id }

/-- `BuildJob.append_log`: `self.log += text`. -/
def BuildJob.append_log (job : BuildJob) (text : String) : BuildJob :=
  { job with log := job.log ++ text }

/-- Splitting a character list at `'\n'`, keeping empty segments (the
semantics of Python `str.split("\n")` restricted to the characters of the
string). -/
def splitNL : List Char → List (List Char)
  | [] => [[]]
  | c :: rest =>
    let r := splitNL rest
    if c = '\n' then [] :: r
    else
      match r with
      | [] => [[c]]
      | l :: ls => (c :: l) :: ls

/-- Python `str.splitlines()` for strings whose only line separator is
`'\n'` (the only separator the builder ever writes): split at newlines and
drop the trailing empty segment produced by a terminating newline, so that
`""` yields `[]` and `"a\n"` yields `["a"]`. -/
def pySplitlines (s : String) : List String :=
  let parts := splitNL s.toList
  let parts := if parts.getLast? = some [] then parts.dropLast else parts
  parts.map fun cs => String.mk cs

/-- The Python slice `l[-n:]` for an arbitrary integer `n`.  Python
negates `n`; an index `k ≥ 0` drops the first `k` elements (so `-0`
selects the whole list) and a negative index `k` counts from the end,
clamped at the start of the list. -/
def pySliceLast (l : List String) (n : Int) : List String :=
  let k : Int := -n
  if 0 ≤ k then l.drop k.toNat
  else l.drop ((l.length : Int) + k).toNat

/-- `BuildJob.get_log_tail`: `"\n".join(self.log.splitlines()[-lines:])`. -/
def BuildJob.get_log_tail (job : BuildJob) (lines : Int) : String :=
  String.intercalate "\n" (pySliceLast (pySplitlines job.log) lines)

/-- The `jobs` dict and pending queue of `BuildQueue` (`builder.py`); the
dict is modelled as an association list keyed by `build_id`. -/
structure BuildQueueState where
  jobs : List (String × BuildJob) := []
  queue : List BuildJob := []
deriving Repr

/-- `BuildQueue.submit`: register the job under its id, then append it to
the pending FIFO queue. -/
def BuildQueueState.submit (q : BuildQueueState) (job : BuildJob) :
    BuildQueueState :=
  { q with jobs := q.jobs ++ [(job.build_id, job)]
           queue := q.queue ++ [job] }

/-- `BuildQueue.get_job`: `self.jobs.get(build_id)`. -/
def BuildQueueState.get_job (q : BuildQueueState) (build_id : String) :
    Option BuildJob :=
  (q.jobs.find? fun p => p.1 == build_id).map (·.2)

/-- The `/build/{build_id}/logs` endpoint of `api.py`: 404 for an unknown
id, otherwise the log tail for the requested number of lines (default
100).  The HTTP error status is the `Except.error` payload. -/
def get_build_logs (q : BuildQueueState) (build_id : String)
    (lines : Int := 100) : Except Nat String :=
  match q.get_job build_id with
  | none => .error 404
  | some job => .ok (job.get_log_tail lines)

/-- Environment oracle for one execution of `BuildQueue._run_build`: the
outcomes of every interaction with the outside world, in program order.
`Except.error e` / `some e` model a raised Python exception with message
`e`. -/
structure Env where
  /-- Exception escaping `_apply_config`, if any. -/
  applyConfigExn : Option String := none
  /-- `datetime.now()` at the start of `_run_build` (line 81). -/
  nowStart : Int := 0
  /-- Whether `/var/db/repos/gentoo/metadata/timestamp.chk` exists. -/
  tsExists : Bool := false
  /-- `timestamp.chk`'s `st_mtime`. -/
  tsMtime : Int := 0
  /-- `datetime.now().timestamp()` at the freshness check (line 91). -/
  nowCheck : Int := 0
  /-- Outcome of `emerge --sync`: exception or exit code. -/
  syncResult : Except String Int := .ok 0
  /-- Whether `/var/cache/binpkgs` exists at the "before" snapshot. -/
  binpkgsExistsBefore : Bool := true
  /-- `rglob("*.gpkg.tar")` at the "before" snapshot (full paths). -/
  binpkgsBefore : List String := []
  /-- Outcome of the `emerge` build command: exception or exit code. -/
  emergeResult : Except String Int := .ok 0
  /-- Whether `/var/cache/binpkgs` exists at the "after" snapshot. -/
  binpkgsExistsAfter : Bool := true
  /-- `rglob("*.gpkg.tar")` at the "after" snapshot (full paths). -/
  binpkgsAfter : List String := []
  /-- Exception raised inside `_create_artifact` while creating the
  directory, opening the tarball or adding a member — i.e. before
  `job.artifact_path` is assigned (lines 193-204). -/
  artifactWriteExn : Option String := none
  /-- Exception raised by the `artifact_path.stat()` call in the final log
  line of `_create_artifact` — i.e. after `job.artifact_path` is assigned
  (line 207). -/
  artifactStatExn : Option String := none
  /-- `datetime.now()` in the worker's `finally` block (line 74). -/
  nowEnd : Int := 0
deriving Repr

/-- Observable actions of one job execution, in program order: status and
timestamp assignments, spawned commands, the sync-skip log line with its
measured age, and artifact creation. -/
inductive Event where
  | setStatus (s : BuildStatus)
  | setStartedAt (t : Int)
  | logSkipSync (age : Int)
  | runCmd (cmd : List String)
  | createArtifact (arcnames : List String)
  | setArtifactPath (p : String)
  | setCompletedAt (t : Int)
deriving DecidableEq, Repr

/-- The `emerge --sync` command line (line 98 of `builder.py`). -/
def syncCmd : List String := ["emerge", "--sync"]

/-- The build command line (lines 105-113 of `builder.py`): the fixed
option list followed by the job's package list. -/
def emergeCmd (packages : List String) : List String :=
  ["emerge", "--buildpkg", "--verbose", "--with-bdeps=y",
   "--jobs=4", "--load-average=8", "--ask=n"] ++ packages

/-- Root of the binary-package output cache. -/
def binpkgRoot : String := "/var/cache/binpkgs"

/-- `str(p.relative_to(binpkg_dir))` for a path `p` lying under
`binpkgRoot`: strip the root and the following separator. -/
def relativeToBinpkgs (p : String) : String :=
  p.drop (binpkgRoot.length + 1)

/-- The "before" snapshot of `_run_build` (line 103): the glob result if
the cache directory exists, else the empty set. -/
def beforeSet (env : Env) : List String :=
  if env.binpkgsExistsBefore then env.binpkgsBefore else []

/-- The "after" snapshot of `_run_build` (line 122). -/
def afterSet (env : Env) : List String :=
  if env.binpkgsExistsAfter then env.binpkgsAfter else []

/-- `new_packages = after_build - before_build` (line 123): set
difference, as the sub-list of the "after" snapshot not present in the
"before" snapshot. -/
def binpkgDiff (env : Env) : List String :=
  (afterSet env).filter fun p => p ∉ beforeSet env

/-- Result of one `_run_build` call: the job as mutated so far, the
recorded events, and the escaped exception if one was raised. -/
structure RunResult where
  job : BuildJob
  events : List Event
  exn : Option String
deriving DecidableEq, Repr

/-- Artifact tarball path for a job (line 196 of `builder.py`). -/
def artifactPathFor (build_id : String) : String :=
  "/var/cache/e4e/artifacts/" ++ build_id ++ ".tar"

/-- Lines 100-134 of `_run_build` (everything after the sync step) plus
`_create_artifact`: snapshot the cache, run the build command, on exit
code 0 diff the snapshots, record `packages_built`, package the new files
when there are any, and mark the job complete. -/
def runBuildAfterSync (env : Env) (job : BuildJob) (evs : List Event) :
    RunResult :=
  let evs := evs ++ [.runCmd (emergeCmd job.packages)]
  match env.emergeResult with
  | .error e => ⟨job, evs, some e⟩
  | .ok r =>
    if r ≠ 0 then
      let job := { job with
        status := .failed
        error := some ("emerge failed with exit code " ++ toString r) }
      ⟨job, evs ++ [.setStatus .failed], none⟩
    else
      let newPackages := binpkgDiff env
      let job := { job with
        packages_built := newPackages.map relativeToBinpkgs }
      if newPackages.isEmpty then
        ⟨{ job with status := .complete },
         evs ++ [.setStatus .complete], none⟩
      else
        match env.artifactWriteExn with
        | some e => ⟨job, evs, some e⟩
        | none =>
          let arcnames := newPackages.map relativeToBinpkgs
          let apath := artifactPathFor job.build_id
          let job := { job with artifact_path := some apath }
          let evs := evs ++ [.createArtifact arcnames, .setArtifactPath apath]
          match env.artifactStatExn with
          | some e => ⟨job, evs, some e⟩
          | none =>
            ⟨{ job with status := .complete },
             evs ++ [.setStatus .complete], none⟩

/-- The sync-skip decision of `_run_build` (lines 88-94): skip exactly
when the freshness marker exists and its measured age is below the 7-day
threshold. -/
def skipsSync (env : Env) : Bool :=
  env.tsExists && decide (env.nowCheck - env.tsMtime < 604800)

/-- `BuildQueue._run_build`: mark the job building and stamp its start
time, apply the config, decide whether to sync the portage tree against
the 7-day (604800 s) freshness threshold, then continue with the build
steps.  Any raised exception escapes with the mutations made so far. -/
def runBuild (env : Env) (job : BuildJob) : RunResult :=
  let job := { job with status := .building, started_at := some env.nowStart }
  let evs : List Event := [.setStatus .building, .setStartedAt env.nowStart]
  match env.applyConfigExn with
  | some e => ⟨job, evs, some e⟩
  | none =>
    if skipsSync env then
      runBuildAfterSync env job (evs ++ [.logSkipSync (env.nowCheck - env.tsMtime)])
    else
      let evs := evs ++ [.runCmd syncCmd]
      match env.syncResult with
      | .error e => ⟨job, evs, some e⟩
      | .ok _ => runBuildAfterSync env job evs

/-- One iteration of `BuildQueue.worker` for a dequeued job: run the
build, convert an escaped exception into the `FAILED` status with its
message as the job's error, and unconditionally stamp the completion time
(the `finally` block). -/
def processJob (env : Env) (job : BuildJob) : BuildJob × List Event :=
  let r := runBuild env job
  match r.exn with
  | some e =>
    ({ r.job with
        status := .failed
        error := some e
        log := r.job.log ++ "\n\nFATAL ERROR: " ++ e ++ "\n"
        completed_at := some env.nowEnd },
     r.events ++ [.setStatus .failed, .setCompletedAt env.nowEnd])
  | none =>
    ({ r.job with completed_at := some env.nowEnd },
     r.events ++ [.setCompletedAt env.nowEnd])

/-- Worker-level trace events: assignments to `BuildQueue.current_job`
around each job, and the per-job events tagged with the job's id. -/
inductive WEvent where
  | beginJob (id : String)
  | jobEvent (id : String) (e : Event)
  | endJob (id : String)
deriving DecidableEq, Repr

/-- The trace of one worker-loop iteration: set `current_job`, run the
job, clear `current_job`. -/
def jobSegment (inp : BuildJob × Env) : List WEvent :=
  .beginJob inp.1.build_id ::
    ((processJob inp.2 inp.1).2.map (WEvent.jobEvent inp.1.build_id) ++
      [.endJob inp.1.build_id])

/-- The full worker trace over a list of submitted jobs (with each job's
environment oracle), in submission order: `asyncio.Queue` is FIFO and the
single worker task awaits each `_run_build` to completion before
dequeuing the next job, so the loop is the sequential composition of the
per-job segments. -/
def workerTrace (inputs : List (BuildJob × Env)) : List WEvent :=
  (inputs.map jobSegment).flatten

/-- Final job records produced by the worker for a list of submissions. -/
def workerResults (inputs : List (BuildJob × Env)) : List BuildJob :=
  inputs.map fun inp => (processJob inp.2 inp.1).1

/-- The sub-trace of status assignments in a list of per-job events. -/
def statusEvents (evs : List Event) : List BuildStatus :=
  evs.filterMap fun e =>
    match e with
    | .setStatus s => some s
    | _ => none

/-- The sub-trace of status assignments to the job with the given id, in
a worker trace. -/
def statusTraceOf (id : String) (tr : List WEvent) : List BuildStatus :=
  tr.filterMap fun e =>
    match e with
    | .jobEvent i (.setStatus s) => if i = id then some s else none
    | _ => none

/-- The sub-trace of `current_job` pointer updates in a worker trace:
`(id, true)` for `current_job = job`, `(id, false)` for
`current_job = None`. -/
def pointerPairs (tr : List WEvent) : List (String × Bool) :=
  tr.filterMap fun e =>
    match e with
    | .beginJob i => some (i, true)
    | .endJob i => some (i, false)
    | _ => none

/-- Replay of the `current_job` pointer (generalized to a multiset of
running jobs so that "at most one job running" is a provable bound rather
than an artifact of the type): `begin` adds the id, `end` removes it. -/
def runningAfter (acc : List String) : List (String × Bool) → List String
  | [] => acc
  | (i, true) :: rest => runningAfter (i :: acc) rest
  | (i, false) :: rest => runningAfter (acc.erase i) rest

/-- The job id a worker-trace event belongs to. -/
def WEvent.id : WEvent → String
  | .beginJob i => i
  | .jobEvent i _ => i
  | .endJob i => i

/-- A filesystem node for the `_apply_config` model: a regular file (its
contents and metadata abstracted into one value), a symbolic link with
its literal target, or a directory with named entries. -/
inductive FSNode where
  | file (data : Nat)
  | symlink (target : String)
  | dir (entries : List (String × FSNode))

/-- Filesystem state touched by `BuildQueue._apply_config`: the node at
`/etc/portage` (if it exists) and the `/tmp/portage-backup-*` trees,
keyed by path.  Config trees extracted from client tarballs are assumed
not to route the `etc/portage` lookup through a symlink (the model treats
a symlinked `etc` as the subpath being absent). -/
structure StagerState where
  portage : Option FSNode
  backups : List (String × FSNode)

/-- Backup destination for a job (line 142): `/tmp/portage-backup-` plus
the job's id. -/
def backupPath (build_id : String) : String :=
  "/tmp/portage-backup-" ++ build_id

/-- Name lookup in a directory's entry list. -/
def lookupEntry (es : List (String × FSNode)) (name : String) :
    Option FSNode :=
  (es.find? fun p => p.1 == name).map (·.2)

/-- Removing a named entry from a directory's entry list (the
`rmtree`/`unlink` of an existing destination, lines 158-162). -/
def removeEntry (es : List (String × FSNode)) (name : String) :
    List (String × FSNode) :=
  es.filter fun p => !(p.1 == name)

/-- Removing every entry whose name is in `names`; used to state the net
effect of the merge loop in closed form. -/
def removeEntries (es : List (String × FSNode)) (names : List String) :
    List (String × FSNode) :=
  es.filter fun p => !(names.contains p.1)

/-- `config_path / "etc" / "portage"` and its existence check (lines
146-148): present only when the config root has an `etc` directory entry
containing a `portage` entry. -/
def configEtcPortage (config : List (String × FSNode)) : Option FSNode :=
  match lookupEntry config "etc" with
  | some (.dir es) => lookupEntry es "portage"
  | _ => none

/-- One iteration of the merge loop of `_apply_config` (lines 155-168):
skip the `"."`/`".."` names, delete an existing same-named destination,
then copy the item — `shutil.copytree` (which creates the destination
with its parents) for a directory, `os.symlink(os.readlink(item), dest)`
for a symlink, `shutil.copy2` for a regular file.  Copying a non-directory
into a missing or non-directory `/etc/portage` raises, as the
corresponding Python calls do; the returned error is the exception
message. -/
def mergeOne (portage : Option FSNode) (item : String × FSNode) :
    Except String (Option FSNode) :=
  if item.1 = "." ∨ item.1 = ".." then .ok portage
  else
    match item.2, portage with
    | .dir _, some (.dir es) =>
      .ok (some (.dir ((item.1, item.2) :: removeEntry es item.1)))
    | .dir _, none => .ok (some (.dir [(item.1, item.2)]))
    | .dir _, some _ => .error "NotADirectoryError"
    | _, some (.dir es) =>
      .ok (some (.dir ((item.1, item.2) :: removeEntry es item.1)))
    | _, _ => .error "FileNotFoundError"

/-- The whole merge loop: fold `mergeOne` over the config's top-level
entries in order.  On an exception the portage tree mutated so far is
kept (Python mutates the real filesystem in place), paired with the
error. -/
def mergeEntries (portage : Option FSNode) :
    List (String × FSNode) → Option FSNode × Option String
  | [] => (portage, none)
  | item :: rest =>
    match mergeOne portage item with
    | .error e => (portage, some e)
    | .ok p => mergeEntries p rest

/-- `BuildQueue._apply_config` (lines 136-169): back up the live
`/etc/portage` (when present) to the job-scoped backup path, then either
replace the live root wholesale with the config's `etc/portage` subtree
(when that subpath exists) or merge the config's top-level entries into
the live root.  The backup copy uses `shutil.copytree` without
`symlinks=True`; the dereferencing of symlinks inside the backup copy is
below this model's resolution (the backup stores the tree).  Returns the
resulting state together with the escaped exception, if any. -/
def applyConfig (st : StagerState) (config : List (String × FSNode))
    (build_id : String) : StagerState × Option String :=
  let st :=
    match st.portage with
    | some t => { st with backups := (backupPath build_id, t) :: st.backups }
    | none => st
  match configEtcPortage config with
  | some (.dir es) => ({ st with portage := some (.dir es) }, none)
  | some _ =>
    -- `rmtree` has already deleted the live root (when it existed) by the
    -- time `copytree` from a non-directory source raises.
    ({ st with portage := none }, some "NotADirectoryError")
  | none =>
    let r := mergeEntries st.portage config
    ({ st with portage := r.1 }, r.2)

/-- Events recorded by `_run_build` before the build command, when no
exception interrupts them: the building/started-at assignments and either
the sync-skip log line or the sync command. -/
def preEvents (env : Env) : List Event :=
  [.setStatus .building, .setStartedAt env.nowStart] ++
    (if skipsSync env then [.logSkipSync (env.nowCheck - env.tsMtime)]
     else [.runCmd syncCmd])

/-- Execution reaches the build command: config staging does not raise
and, when the sync step runs, it does not raise either. -/
def reachesBuildCmd (env : Env) : Prop :=
  env.applyConfigExn = none ∧
    (skipsSync env = true ∨ ∃ c, env.syncResult = .ok c)

/-- Whether the first list is an initial segment of the second. -/
def isInitialSegment : List Char → List Char → Bool
  | [], _ => true
  | _ :: _, [] => false
  | a :: as, b :: bs => a == b && isInitialSegment as bs

/-- Whether `pat` occurs contiguously anywhere in the second list. -/
def containsChars (pat : List Char) : List Char → Bool
  | [] => isInitialSegment pat []
  | s :: rest => isInitialSegment pat (s :: rest) || containsChars pat rest

/-- Whether a command-line token mentions portage's keep-going option
(the literal `keep-going`, as in `--keep-going` or `--keep-going=y`). -/
def mentionsKeepGoing (s : String) : Bool :=
  containsChars "keep-going".toList s.toList

lemma runBuild_reached (env : Env) (job : BuildJob)
    (h : reachesBuildCmd env) :
    runBuild env job =
      runBuildAfterSync env
        { job with status := .building, started_at := some env.nowStart }
        (preEvents env) := by
  obtain ⟨hconf, hsync⟩ := h
  unfold runBuild preEvents
  rw [hconf]
  cases hskip : skipsSync env with
  | true => simp
  | false =>
    rcases hsync with hsk | ⟨c, hc⟩
    · simp [hskip] at hsk
    · simp [hc]

lemma statusEvents_append (a b : List Event) :
    statusEvents (a ++ b) = statusEvents a ++ statusEvents b :=
  List.filterMap_append ..

lemma runBuildAfterSync_shape (env : Env) (job : BuildJob)
    (evs : List Event) :
    (runBuildAfterSync env job evs).job.started_at = job.started_at ∧
    (((runBuildAfterSync env job evs).exn = none ∧
        ∃ t, (t = BuildStatus.complete ∨ t = BuildStatus.failed) ∧
          statusEvents (runBuildAfterSync env job evs).events =
            statusEvents evs ++ [t] ∧
          (runBuildAfterSync env job evs).job.status = t) ∨
      ((runBuildAfterSync env job evs).exn.isSome ∧
        statusEvents (runBuildAfterSync env job evs).events =
          statusEvents evs ∧
        (runBuildAfterSync env job evs).job.status = job.status)) := by
  cases hres : env.emergeResult with
  | error e =>
    refine ⟨?_, Or.inr ?_⟩ <;>
      simp [runBuildAfterSync, hres, statusEvents_append, statusEvents]
  | ok r =>
    by_cases hr : r = 0
    · subst hr
      cases hemp : (binpkgDiff env).isEmpty with
      | true =>
        refine ⟨?_, Or.inl ⟨?_, .complete, Or.inl rfl, ?_, ?_⟩⟩ <;>
          simp [runBuildAfterSync, hres, hemp, statusEvents_append, statusEvents]
      | false =>
        cases hw : env.artifactWriteExn with
        | some e =>
          refine ⟨?_, Or.inr ?_⟩ <;>
            simp [runBuildAfterSync, hres, hemp, hw, statusEvents_append,
              statusEvents]
        | none =>
          cases hs : env.artifactStatExn with
          | some e =>
            refine ⟨?_, Or.inr ?_⟩ <;>
              simp [runBuildAfterSync, hres, hemp, hw, hs, statusEvents_append,
                statusEvents]
          | none =>
            refine ⟨?_, Or.inl ⟨?_, .complete, Or.inl rfl, ?_, ?_⟩⟩ <;>
              simp [runBuildAfterSync, hres, hemp, hw, hs, statusEvents_append,
                statusEvents]
    · refine ⟨?_, Or.inl ⟨?_, .failed, Or.inr rfl, ?_, ?_⟩⟩ <;>
        simp [runBuildAfterSync, hres, hr, statusEvents_append, statusEvents]

lemma runBuild_shape (env : Env) (job : BuildJob) :
    (runBuild env job).job.started_at = some env.nowStart ∧
    (((runBuild env job).exn = none ∧
        ∃ t, (t = BuildStatus.complete ∨ t = BuildStatus.failed) ∧
          statusEvents (runBuild env job).events = [.building, t] ∧
          (runBuild env job).job.status = t) ∨
      ((runBuild env job).exn.isSome ∧
        statusEvents (runBuild env job).events = [.building] ∧
        (runBuild env job).job.status = .building)) := by
  cases happ : env.applyConfigExn with
  | some e =>
    refine ⟨?_, Or.inr ?_⟩ <;> simp [runBuild, happ, statusEvents]
  | none =>
    cases hskip : skipsSync env with
    | true =>
      have h := runBuildAfterSync_shape env
        { job with status := .building, started_at := some env.nowStart }
        ([.setStatus .building, .setStartedAt env.nowStart] ++
          [.logSkipSync (env.nowCheck - env.tsMtime)])
      simp only [runBuild, happ, hskip, if_true] at *
      rcases h with ⟨h1, h2 | h3⟩
      · exact ⟨by simpa using h1,
          Or.inl (by simpa [statusEvents] using h2)⟩
      · exact ⟨by simpa using h1,
          Or.inr (by simpa [statusEvents] using h3)⟩
    | false =>
      cases hsy : env.syncResult with
      | error e =>
        refine ⟨?_, Or.inr ?_⟩ <;>
          simp [runBuild, happ, hskip, hsy, statusEvents]
      | ok c =>
        have h := runBuildAfterSync_shape env
          { job with status := .building, started_at := some env.nowStart }
          ([.setStatus .building, .setStartedAt env.nowStart] ++
            [.runCmd syncCmd])
        simp only [runBuild, happ, hskip, hsy, if_false] at *
        rcases h with ⟨h1, h2 | h3⟩
        · exact ⟨by simpa using h1,
            Or.inl (by simpa [statusEvents] using h2)⟩
        · exact ⟨by simpa using h1,
            Or.inr (by simpa [statusEvents] using h3)⟩

lemma processJob_shape (env : Env) (job : BuildJob) :
    (processJob env job).1.started_at = some env.nowStart ∧
    (processJob env job).1.completed_at = some env.nowEnd ∧
    ∃ t, (t = BuildStatus.complete ∨ t = BuildStatus.failed) ∧
      statusEvents (processJob env job).2 = [.building, t] ∧
      (processJob env job).1.status = t := by
  have h := runBuild_shape env job
  cases hexn : (runBuild env job).exn with
  | none =>
    rcases h with ⟨h1, ⟨_, t, ht, hse, hst⟩ | ⟨hsome, _, _⟩⟩
    · refine ⟨by simp [processJob, hexn, h1], by simp [processJob, hexn],
        t, ht, ?_, by simp [processJob, hexn, hst]⟩
      simp only [processJob, hexn]
      rw [statusEvents_append, hse]
      simp [statusEvents]
    · rw [hexn] at hsome; simp at hsome
  | some e =>
    rcases h with ⟨h1, ⟨hnone, _⟩ | ⟨_, hse, hst⟩⟩
    · rw [hexn] at hnone; simp at hnone
    · refine ⟨by simp [processJob, hexn, h1], by simp [processJob, hexn],
        .failed, Or.inr rfl, ?_, by simp [processJob, hexn]⟩
      simp only [processJob, hexn]
      rw [statusEvents_append, hse]
      simp [statusEvents]

lemma processJob_of_exn_none (env : Env) (job : BuildJob)
    (h : (runBuild env job).exn = none) :
    processJob env job =
      ({ (runBuild env job).job with completed_at := some env.nowEnd },
       (runBuild env job).events ++ [.setCompletedAt env.nowEnd]) := by
  simp [processJob, h]

lemma processJob_of_exn_some (env : Env) (job : BuildJob) (e : String)
    (h : (runBuild env job).exn = some e) :
    processJob env job =
      ({ (runBuild env job).job with
          status := .failed
          error := some e
          log := (runBuild env job).job.log ++ "\n\nFATAL ERROR: " ++ e ++ "\n"
          completed_at := some env.nowEnd },
       (runBuild env job).events ++
         [.setStatus .failed, .setCompletedAt env.nowEnd]) := by
  simp [processJob, h]

/-- C10: for every job and every log buffer contents, `get_log_tail` with
`lines = 0` returns the entire log — all of its lines joined by newlines —
rather than the empty string, because the Python slice `l[-0:]` selects
the whole list; and this behaviour is reachable through the public
`/build/{build_id}/logs` endpoint via its `lines` query parameter. -/
theorem get_log_tail_zero_returns_whole_log (q : BuildQueueState)
    (build_id : String) (job : BuildJob)
    (h : q.get_job build_id = some job) :
    get_build_logs q build_id 0 =
      .ok (String.intercalate "\n" (pySplitlines job.log)) ∧
    job.get_log_tail 0 =
      String.intercalate "\n" (pySplitlines job.log) := by
  have htail : job.get_log_tail 0 =
      String.intercalate "\n" (pySplitlines job.log) := by
    simp [BuildJob.get_log_tail, pySliceLast]
  exact ⟨by simp [get_build_logs, h, htail], htail⟩

/-- Witness for C10 at a concrete queue holding one job with a two-line
log: the hypothesis holds by evaluation and the endpoint returns the whole
log. -/
theorem get_log_tail_zero_returns_whole_log_witness :
    (BuildQueueState.submit {}
        { mkBuildJob ["app-misc/foo"] "h" "/cfg/h" "b1" with
            log := "line one\nline two\n" }).get_job "b1" =
      some { mkBuildJob ["app-misc/foo"] "h" "/cfg/h" "b1" with
              log := "line one\nline two\n" } ∧
    get_build_logs
        (BuildQueueState.submit {}
          { mkBuildJob ["app-misc/foo"] "h" "/cfg/h" "b1" with
              log := "line one\nline two\n" }) "b1" 0 =
      .ok "line one\nline two" := by
  refine ⟨by decide, ?_⟩
  have h := (get_log_tail_zero_returns_whole_log
    (BuildQueueState.submit {}
      { mkBuildJob ["app-misc/foo"] "h" "/cfg/h" "b1" with
          log := "line one\nline two\n" }) "b1"
    { mkBuildJob ["app-misc/foo"] "h" "/cfg/h" "b1" with
        log := "line one\nline two\n" } (by decide)).1
  rw [h]
  exact congrArg Except.ok (by decide)

lemma runBuildAfterSync_nonzero (env : Env) (job : BuildJob)
    (evs : List Event) (r : Int) (hr : env.emergeResult = .ok r)
    (hnz : r ≠ 0) :
    runBuildAfterSync env job evs =
      ⟨{ job with
          status := .failed
          error := some ("emerge failed with exit code " ++ toString r) },
       evs ++ [.runCmd (emergeCmd job.packages), .setStatus .failed],
       none⟩ := by
  simp [runBuildAfterSync, hr, hnz]

/-- C3: for every job whose build command runs and exits with a nonzero
code, the job ends `FAILED`, its error is the message naming that exit
code, no artifact packaging is performed, and `packages_built` stays
empty. -/
theorem nonzero_exit_fails_without_packaging (env : Env)
    (packages : List String) (config_hash config_path build_id : String)
    (r : Int) (hreach : reachesBuildCmd env)
    (hr : env.emergeResult = .ok r) (hnz : r ≠ 0) :
    (processJob env (mkBuildJob packages config_hash config_path
        build_id)).1.status = .failed ∧
    (processJob env (mkBuildJob packages config_hash config_path
        build_id)).1.error =
      some ("emerge failed with exit code " ++ toString r) ∧
    (processJob env (mkBuildJob packages config_hash config_path
        build_id)).1.packages_built = [] ∧
    (processJob env (mkBuildJob packages config_hash config_path
        build_id)).1.artifact_path = none ∧
    ∀ ps, Event.createArtifact ps ∉
      (processJob env (mkBuildJob packages config_hash config_path
        build_id)).2 := by
  have hrb := runBuild_reached env
    (mkBuildJob packages config_hash config_path build_id) hreach
  rw [runBuildAfterSync_nonzero env _ _ r hr hnz] at hrb
  have hp := processJob_of_exn_none env
    (mkBuildJob packages config_hash config_path build_id) (by rw [hrb])
  rw [hrb] at hp
  refine ⟨by simp [hp], by simp [hp], by rw [hp]; simp [mkBuildJob],
    by rw [hp]; simp [mkBuildJob], ?_⟩
  intro ps
  rw [hp]
  cases hsk : skipsSync env <;> simp [preEvents, hsk]

/-- Witness for C3: a fresh marker, a daytime-old tree and `emerge`
exiting 2. -/
theorem nonzero_exit_fails_without_packaging_witness :
    reachesBuildCmd
      { tsExists := true, tsMtime := 0, nowCheck := 3600,
        emergeResult := .ok 2 } ∧
    (Env.emergeResult
        { tsExists := true, tsMtime := 0, nowCheck := 3600,
          emergeResult := .ok 2 }) = .ok 2 ∧
    (2 : Int) ≠ 0 ∧
    (processJob
        { tsExists := true, tsMtime := 0, nowCheck := 3600,
          emergeResult := .ok 2 }
        (mkBuildJob ["app-misc/foo"] "h" "/cfg/h" "b1")).1.status =
      .failed ∧
    (processJob
        { tsExists := true, tsMtime := 0, nowCheck := 3600,
          emergeResult := .ok 2 }
        (mkBuildJob ["app-misc/foo"] "h" "/cfg/h" "b1")).1.error =
      some "emerge failed with exit code 2" := by
  have h := nonzero_exit_fails_without_packaging
    { tsExists := true, tsMtime := 0, nowCheck := 3600,
      emergeResult := .ok 2 }
    ["app-misc/foo"] "h" "/cfg/h" "b1" 2
    ⟨rfl, Or.inl (by decide)⟩ rfl (by decide)
  exact ⟨⟨rfl, Or.inl (by decide)⟩, rfl, by decide, h.1, by
    rw [h.2.1]; exact congrArg some (by decide)⟩

lemma runBuildAfterSync_events (env : Env) (job : BuildJob)
    (evs : List Event) :
    ∃ tail, (runBuildAfterSync env job evs).events =
      evs ++ .runCmd (emergeCmd job.packages) :: tail ∧
      ∀ cmd, Event.runCmd cmd ∉ tail := by
  cases hres : env.emergeResult with
  | error e =>
    exact ⟨[], by simp [runBuildAfterSync, hres], by simp⟩
  | ok r =>
    by_cases hr : r = 0
    · subst hr
      cases hemp : (binpkgDiff env).isEmpty with
      | true =>
        exact ⟨[.setStatus .complete],
          by simp [runBuildAfterSync, hres, hemp], by simp⟩
      | false =>
        cases hw : env.artifactWriteExn with
        | some e =>
          exact ⟨[], by simp [runBuildAfterSync, hres, hemp, hw], by simp⟩
        | none =>
          cases hs : env.artifactStatExn with
          | some e =>
            exact ⟨[.createArtifact ((binpkgDiff env).map relativeToBinpkgs),
                .setArtifactPath (artifactPathFor job.build_id)],
              by simp [runBuildAfterSync, hres, hemp, hw, hs], by simp⟩
          | none =>
            exact ⟨[.createArtifact ((binpkgDiff env).map relativeToBinpkgs),
                .setArtifactPath (artifactPathFor job.build_id),
                .setStatus .complete],
              by simp [runBuildAfterSync, hres, hemp, hw, hs], by simp⟩
    · exact ⟨[.setStatus .failed],
        by simp [runBuildAfterSync, hres, hr], by simp⟩

lemma runBuild_events_reached (env : Env) (job : BuildJob)
    (h : reachesBuildCmd env) :
    ∃ tail, (runBuild env job).events =
      preEvents env ++ .runCmd (emergeCmd job.packages) :: tail ∧
      ∀ cmd, Event.runCmd cmd ∉ tail := by
  rw [runBuild_reached env job h]
  simpa using runBuildAfterSync_events env
    { job with status := .building, started_at := some env.nowStart }
    (preEvents env)

lemma processJob_events (env : Env) (job : BuildJob) :
    ∃ wtail, (processJob env job).2 = (runBuild env job).events ++ wtail ∧
      ∀ cmd, Event.runCmd cmd ∉ wtail := by
  cases hexn : (runBuild env job).exn with
  | none =>
    exact ⟨[.setCompletedAt env.nowEnd],
      by rw [processJob_of_exn_none env job hexn], by simp⟩
  | some e =>
    exact ⟨[.setStatus .failed, .setCompletedAt env.nowEnd],
      by rw [processJob_of_exn_some env job e hexn], by simp⟩

lemma emergeCmd_ne_syncCmd (ps : List String) : emergeCmd ps ≠ syncCmd := by
  intro h
  simp [emergeCmd, syncCmd] at h

/-- C9 counterexample: on a concrete run the build command is invoked,
and none of its option tokens mentions portage's keep-going option — the
invocation carries no keep-going policy, contradicting the claim that the
build options comprise one. -/
theorem emerge_keep_going_counterexample :
    Event.runCmd (emergeCmd ["app-misc/foo"]) ∈
      (processJob ({ tsExists := true } : Env)
        (mkBuildJob ["app-misc/foo"] "h" "/cfg/h" "b1")).2 ∧
    ((emergeCmd ["app-misc/foo"]).all fun s => !(mentionsKeepGoing s))
      = true :=
  ⟨by decide, by decide⟩

/-- C9 (amended): for every job whose execution reaches the build step,
the build command is invoked with the job's full requested package list
appended to the fixed option list — binary-package creation, verbosity,
build-time dependency inclusion, parallelism settings (`--jobs=4`,
`--load-average=8`) and non-interactive mode forced (`--ask=n`) — and no
keep-going option is passed. -/
theorem emerge_invocation_options (env : Env) (packages : List String)
    (config_hash config_path build_id : String)
    (hreach : reachesBuildCmd env) :
    Event.runCmd (emergeCmd packages) ∈
      (processJob env
        (mkBuildJob packages config_hash config_path build_id)).2 ∧
    emergeCmd packages =
      ["emerge", "--buildpkg", "--verbose", "--with-bdeps=y", "--jobs=4",
       "--load-average=8", "--ask=n"] ++ packages ∧
    ((["emerge", "--buildpkg", "--verbose", "--with-bdeps=y", "--jobs=4",
        "--load-average=8", "--ask=n"].all
      fun s => !(mentionsKeepGoing s)) = true) := by
  obtain ⟨tail, htail, -⟩ := runBuild_events_reached env
    (mkBuildJob packages config_hash config_path build_id) hreach
  obtain ⟨wtail, hw, -⟩ := processJob_events env
    (mkBuildJob packages config_hash config_path build_id)
  refine ⟨?_, rfl, by decide⟩
  rw [hw, htail]
  simp [mkBuildJob]

/-- Witness for C9's amended theorem: a reachable environment with a
fresh tree. -/
theorem emerge_invocation_options_witness :
    reachesBuildCmd ({ tsExists := true } : Env) ∧
    Event.runCmd (emergeCmd ["app-misc/foo", "app-misc/bar"]) ∈
      (processJob ({ tsExists := true } : Env)
        (mkBuildJob ["app-misc/foo", "app-misc/bar"] "h" "/cfg/h"
          "b2")).2 := by
  have h := emerge_invocation_options ({ tsExists := true } : Env)
    ["app-misc/foo", "app-misc/bar"] "h" "/cfg/h" "b2"
    ⟨rfl, Or.inl (by decide)⟩
  exact ⟨⟨rfl, Or.inl (by decide)⟩, h.1⟩

/-- C6 counterexample: with the freshness marker absent but configuration
staging raising, the refresh command is invoked zero times — not exactly
once as the claim states for every job with an absent marker. -/
theorem sync_policy_counterexample :
    ({ applyConfigExn := some "copy failed" } : Env).tsExists = false ∧
    Event.runCmd syncCmd ∉
      (processJob ({ applyConfigExn := some "copy failed" } : Env)
        (mkBuildJob ["app-misc/foo"] "h" "/cfg/h" "b1")).2 :=
  ⟨rfl, by decide⟩

/-- C6 (amended): for every job whose configuration staging succeeds — a
staging failure aborts the job before the freshness check — if the
freshness marker exists and is younger than 7 days (604800 s) the
tree-refresh command is never invoked and the skip decision is recorded
with the measured age, and if the marker is absent or its age is at least
7 days the refresh command is invoked exactly once, before the build
command. -/
theorem sync_freshness_policy (env : Env) (job : BuildJob)
    (hconf : env.applyConfigExn = none) :
    (env.tsExists = true → env.nowCheck - env.tsMtime < 604800 →
      Event.runCmd syncCmd ∉ (processJob env job).2 ∧
      Event.logSkipSync (env.nowCheck - env.tsMtime) ∈
        (processJob env job).2) ∧
    ((env.tsExists = false ∨ 604800 ≤ env.nowCheck - env.tsMtime) →
      ∃ u v, (processJob env job).2 = u ++ .runCmd syncCmd :: v ∧
        Event.runCmd syncCmd ∉ u ∧ Event.runCmd syncCmd ∉ v ∧
        ∀ ps, Event.runCmd (emergeCmd ps) ∉ u) := by
  constructor
  · intro hts hage
    have hskip : skipsSync env = true := by
      simp [skipsSync, hts, hage]
    obtain ⟨tail, htail, htailcmd⟩ :=
      runBuild_events_reached env job ⟨hconf, Or.inl hskip⟩
    obtain ⟨wtail, hw, hwcmd⟩ := processJob_events env job
    rw [hw, htail]
    constructor
    · simp [preEvents, hskip]
      exact ⟨fun h => emergeCmd_ne_syncCmd job.packages h.symm,
        fun h => htailcmd syncCmd h, fun h => hwcmd syncCmd h⟩
    · simp [preEvents, hskip]
  · intro hstale
    have hskip : skipsSync env = false := by
      rcases hstale with h | h
      · simp [skipsSync, h]
      · simp [skipsSync, not_lt.mpr h]
    cases hsy : env.syncResult with
    | ok c =>
      obtain ⟨tail, htail, htailcmd⟩ :=
        runBuild_events_reached env job ⟨hconf, Or.inr ⟨c, hsy⟩⟩
      obtain ⟨wtail, hw, hwcmd⟩ := processJob_events env job
      refine ⟨[.setStatus .building, .setStartedAt env.nowStart],
        .runCmd (emergeCmd job.packages) :: tail ++ wtail, ?_, by simp,
        ?_, by simp⟩
      · rw [hw, htail]
        simp [preEvents, hskip]
      · simp
        exact ⟨fun h => emergeCmd_ne_syncCmd job.packages h.symm,
          fun h => htailcmd syncCmd h, fun h => hwcmd syncCmd h⟩
    | error e =>
      have hrb : runBuild env job =
          ⟨{ job with status := .building, started_at := some env.nowStart },
           [.setStatus .building, .setStartedAt env.nowStart,
            .runCmd syncCmd], some e⟩ := by
        simp [runBuild, hconf, hskip, hsy]
      have hp := processJob_of_exn_some env job e (by rw [hrb])
      rw [hrb] at hp
      refine ⟨[.setStatus .building, .setStartedAt env.nowStart],
        [.setStatus .failed, .setCompletedAt env.nowEnd], ?_, by simp,
        by simp, by simp⟩
      rw [hp]
      simp

/-- Witness for C6's amended theorem, both halves: a fresh marker skips
the sync and logs the age; an absent marker syncs exactly once before the
build command. -/
theorem sync_freshness_policy_witness :
    (({ tsExists := true, tsMtime := 1000, nowCheck := 4600 } :
        Env).applyConfigExn = none ∧
      Event.runCmd syncCmd ∉
        (processJob ({ tsExists := true, tsMtime := 1000, nowCheck := 4600 } :
            Env) (mkBuildJob ["x"] "h" "/cfg/h" "b1")).2 ∧
      Event.logSkipSync 3600 ∈
        (processJob ({ tsExists := true, tsMtime := 1000, nowCheck := 4600 } :
            Env) (mkBuildJob ["x"] "h" "/cfg/h" "b1")).2) ∧
    (({} : Env).applyConfigExn = none ∧
      ∃ u v, (processJob ({} : Env)
          (mkBuildJob ["x"] "h" "/cfg/h" "b2")).2 =
        u ++ .runCmd syncCmd :: v ∧
        Event.runCmd syncCmd ∉ u ∧ Event.runCmd syncCmd ∉ v ∧
        ∀ ps, Event.runCmd (emergeCmd ps) ∉ u) := by
  constructor
  · have h := (sync_freshness_policy
      ({ tsExists := true, tsMtime := 1000, nowCheck := 4600 } : Env)
      (mkBuildJob ["x"] "h" "/cfg/h" "b1") rfl).1 rfl (by decide)
    exact ⟨rfl, h.1, by simpa using h.2⟩
  · have h := (sync_freshness_policy ({} : Env)
      (mkBuildJob ["x"] "h" "/cfg/h" "b2") rfl).2 (Or.inl rfl)
    exact ⟨rfl, h⟩

/-- C7: every exception raised at any step of a job's execution is
contained at the job boundary: the job is marked `FAILED` with the error
message recorded, the completion time is stamped (unconditionally, for
every run), and the worker loop's segment for the job still ends by
clearing the current-job pointer, with every later-submitted job's
segment still executed in full after it. -/
theorem worker_contains_failures (env : Env) (job : BuildJob) (e : String)
    (h : (runBuild env job).exn = some e) :
    (processJob env job).1.status = .failed ∧
    (processJob env job).1.error = some e ∧
    (processJob env job).1.completed_at = some env.nowEnd ∧
    (∀ env' job', (processJob env' job').1.completed_at =
      some env'.nowEnd) ∧
    jobSegment (job, env) = .beginJob job.build_id ::
      ((processJob env job).2.map (WEvent.jobEvent job.build_id) ++
        [.endJob job.build_id]) ∧
    ∀ pre post, workerTrace (pre ++ (job, env) :: post) =
      (pre.map jobSegment).flatten ++
        (jobSegment (job, env) ++ (post.map jobSegment).flatten) := by
  have hp := processJob_of_exn_some env job e h
  refine ⟨by rw [hp], by rw [hp], by rw [hp], ?_, rfl, ?_⟩
  · intro env' job'
    exact (processJob_shape env' job').2.1
  · intro pre post
    simp [workerTrace]

/-- Witness for C7: config staging raising `disk full` marks the job
failed with that error while the worker proceeds. -/
theorem worker_contains_failures_witness :
    (runBuild ({ applyConfigExn := some "disk full" } : Env)
        (mkBuildJob ["x"] "h" "/cfg/h" "b1")).exn = some "disk full" ∧
    (processJob ({ applyConfigExn := some "disk full" } : Env)
        (mkBuildJob ["x"] "h" "/cfg/h" "b1")).1.status = .failed ∧
    (processJob ({ applyConfigExn := some "disk full" } : Env)
        (mkBuildJob ["x"] "h" "/cfg/h" "b1")).1.error =
      some "disk full" := by
  have h := worker_contains_failures
    ({ applyConfigExn := some "disk full" } : Env)
    (mkBuildJob ["x"] "h" "/cfg/h" "b1") "disk full" (by decide)
  exact ⟨by decide, h.1, h.2.1⟩

lemma statusTraceOf_append (id : String) (a b : List WEvent) :
    statusTraceOf id (a ++ b) = statusTraceOf id a ++ statusTraceOf id b :=
  List.filterMap_append ..

lemma statusTraceOf_map_jobEvent (id i : String) (evs : List Event) :
    statusTraceOf id (evs.map (WEvent.jobEvent i)) =
      if i = id then statusEvents evs else [] := by
  induction evs with
  | nil => simp [statusTraceOf, statusEvents]
  | cons e rest ih =>
    cases e <;> by_cases hid : i = id <;>
      simp [statusTraceOf, statusEvents, hid] <;>
      simpa [statusTraceOf, statusEvents, hid] using ih

lemma statusTraceOf_jobSegment (id : String) (inp : BuildJob × Env) :
    statusTraceOf id (jobSegment inp) =
      if inp.1.build_id = id then statusEvents (processJob inp.2 inp.1).2
      else [] := by
  have h := statusTraceOf_map_jobEvent id inp.1.build_id
    (processJob inp.2 inp.1).2
  simp only [jobSegment]
  rw [show (WEvent.beginJob inp.1.build_id ::
      ((processJob inp.2 inp.1).2.map (WEvent.jobEvent inp.1.build_id) ++
        [.endJob inp.1.build_id])) =
    [WEvent.beginJob inp.1.build_id] ++
      (processJob inp.2 inp.1).2.map (WEvent.jobEvent inp.1.build_id) ++
      [.endJob inp.1.build_id] by simp]
  rw [statusTraceOf_append, statusTraceOf_append, h]
  simp [statusTraceOf]

lemma statusTraceOf_flatten_ne (id : String) (l : List (BuildJob × Env))
    (h : ∀ p ∈ l, p.1.build_id ≠ id) :
    statusTraceOf id ((l.map jobSegment).flatten) = [] := by
  induction l with
  | nil => simp [statusTraceOf]
  | cons inp rest ih =>
    simp only [List.map_cons, List.flatten_cons, statusTraceOf_append]
    rw [statusTraceOf_jobSegment, if_neg (h inp (by simp)),
      ih fun p hp => h p (by simp [hp])]
    simp

/-- C1: for every job processed by the worker amid any schedule of other
jobs with distinct ids, the statuses ever assigned to that job across the
whole worker history are exactly `BUILDING` (with `started_at` stamped)
followed by exactly one terminal status — `COMPLETE` or `FAILED` — which
is also the job's final status; no assignment follows the terminal one. -/
theorem status_lifecycle (inputs pre post : List (BuildJob × Env))
    (inp : BuildJob × Env) (hsplit : inputs = pre ++ inp :: post)
    (hid : inp.1.build_id ∉ (pre ++ post).map fun p => p.1.build_id) :
    ((processJob inp.2 inp.1).1.status = .complete ∨
      (processJob inp.2 inp.1).1.status = .failed) ∧
    statusTraceOf inp.1.build_id (workerTrace inputs) =
      [.building, (processJob inp.2 inp.1).1.status] ∧
    (processJob inp.2 inp.1).1.started_at = some inp.2.nowStart ∧
    (processJob inp.2 inp.1).1.completed_at = some inp.2.nowEnd := by
  obtain ⟨hstart, hcomp, t, ht, hse, hst⟩ := processJob_shape inp.2 inp.1
  have hpre : ∀ p ∈ pre, p.1.build_id ≠ inp.1.build_id := by
    intro p hp heq
    refine hid ?_
    simp only [List.map_append, List.mem_append]
    exact Or.inl (List.mem_map.mpr ⟨p, hp, heq⟩)
  have hpost : ∀ p ∈ post, p.1.build_id ≠ inp.1.build_id := by
    intro p hp heq
    refine hid ?_
    simp only [List.map_append, List.mem_append]
    exact Or.inr (List.mem_map.mpr ⟨p, hp, heq⟩)
  refine ⟨by rw [hst]; exact ht, ?_, hstart, hcomp⟩
  subst hsplit
  rw [workerTrace, List.map_append, List.map_cons, List.flatten_append,
    List.flatten_cons, statusTraceOf_append, statusTraceOf_append,
    statusTraceOf_flatten_ne _ pre hpre,
    statusTraceOf_flatten_ne _ post hpost,
    statusTraceOf_jobSegment, if_pos rfl, hse, hst]
  simp

/-- Witness for C1: two submitted jobs with distinct ids; the first one's
status trace is Building then Complete. -/
theorem status_lifecycle_witness :
    (("a" : String) ∉
      ([((mkBuildJob ["y"] "h" "/cfg/h" "b"), ({} : Env))] ++
          ([] : List (BuildJob × Env))).map fun p => p.1.build_id) ∧
    statusTraceOf "a"
      (workerTrace [((mkBuildJob ["x"] "h" "/cfg/h" "a"), ({} : Env)),
        ((mkBuildJob ["y"] "h" "/cfg/h" "b"), ({} : Env))]) =
      [.building,
        (processJob ({} : Env) (mkBuildJob ["x"] "h" "/cfg/h" "a")).1.status] := by
  have h := status_lifecycle
    [((mkBuildJob ["x"] "h" "/cfg/h" "a"), ({} : Env)),
      ((mkBuildJob ["y"] "h" "/cfg/h" "b"), ({} : Env))]
    [] [((mkBuildJob ["y"] "h" "/cfg/h" "b"), ({} : Env))]
    ((mkBuildJob ["x"] "h" "/cfg/h" "a"), ({} : Env)) rfl (by decide)
  exact ⟨by decide, h.2.1⟩

lemma pointerPairs_append (a b : List WEvent) :
    pointerPairs (a ++ b) = pointerPairs a ++ pointerPairs b :=
  List.filterMap_append ..

lemma pointerPairs_map_jobEvent (i : String) (evs : List Event) :
    pointerPairs (evs.map (WEvent.jobEvent i)) = [] := by
  induction evs with
  | nil => simp [pointerPairs]
  | cons e rest ih => simp [pointerPairs, ih]

lemma pointerPairs_jobSegment (inp : BuildJob × Env) :
    pointerPairs (jobSegment inp) =
      [(inp.1.build_id, true), (inp.1.build_id, false)] := by
  simp only [jobSegment]
  rw [show (WEvent.beginJob inp.1.build_id ::
      ((processJob inp.2 inp.1).2.map (WEvent.jobEvent inp.1.build_id) ++
        [.endJob inp.1.build_id])) =
    [WEvent.beginJob inp.1.build_id] ++
      (processJob inp.2 inp.1).2.map (WEvent.jobEvent inp.1.build_id) ++
      [.endJob inp.1.build_id] by simp]
  rw [pointerPairs_append, pointerPairs_append, pointerPairs_map_jobEvent]
  simp [pointerPairs]

lemma pointerPairs_workerTrace (inputs : List (BuildJob × Env)) :
    pointerPairs (workerTrace inputs) =
      (inputs.map fun p =>
        [(p.1.build_id, true), (p.1.build_id, false)]).flatten := by
  induction inputs with
  | nil => simp [workerTrace, pointerPairs]
  | cons inp rest ih =>
    simp only [workerTrace, List.map_cons, List.flatten_cons,
      pointerPairs_append] at *
    rw [pointerPairs_jobSegment, ih]

lemma runningAfter_pairs_bound (ids : List String)
    (p : List (String × Bool))
    (hp : p <+: (ids.map fun i => [(i, true), (i, false)]).flatten) :
    (runningAfter [] p).length ≤ 1 := by
  induction ids generalizing p with
  | nil =>
    obtain ⟨t, ht⟩ := hp
    simp only [List.map_nil, List.flatten_nil, List.append_eq_nil] at ht
    rw [ht.1]
    simp [runningAfter]
  | cons i rest ih =>
    obtain ⟨t, ht⟩ := hp
    simp only [List.map_cons, List.flatten_cons, List.cons_append,
      List.nil_append] at ht
    match p, ht with
    | [], _ => simp [runningAfter]
    | [q1], ht =>
      injection ht with h1 _
      subst h1
      simp [runningAfter]
    | q1 :: q2 :: p', ht =>
      injection ht with h1 ht
      injection ht with h2 ht
      subst h1; subst h2
      have : runningAfter [] ((i, true) :: (i, false) :: p') =
          runningAfter [] p' := by
        simp [runningAfter]
      rw [this]
      exact ih p' ⟨t, ht⟩

lemma setStatus_mem_of_mem_statusEvents (evs : List Event)
    (t : BuildStatus) (h : t ∈ statusEvents evs) :
    Event.setStatus t ∈ evs := by
  simp only [statusEvents, List.mem_filterMap] at h
  obtain ⟨a, ha, hma⟩ := h
  cases a <;> simp_all

lemma id_of_mem_jobSegment (inp : BuildJob × Env) (e : WEvent)
    (he : e ∈ jobSegment inp) : e.id = inp.1.build_id := by
  simp only [jobSegment, List.mem_cons, List.mem_append,
    List.mem_singleton, List.mem_map, List.not_mem_nil, or_false] at he
  rcases he with rfl | ⟨ev, -, rfl⟩ | rfl <;> rfl

lemma nodup_front_disjoint (inputs : List (BuildJob × Env))
    (xs : List (BuildJob × Env)) (a : BuildJob × Env)
    (ys : List (BuildJob × Env)) (b : BuildJob × Env)
    (zs : List (BuildJob × Env))
    (hsplit : inputs = xs ++ a :: (ys ++ b :: zs))
    (hnodup : (inputs.map fun p => p.1.build_id).Nodup) :
    ∀ inp ∈ xs ++ [a], b.1.build_id ≠ inp.1.build_id := by
  intro inp hinp heq
  have h1 : inputs = (xs ++ [a]) ++ (ys ++ b :: zs) := by
    rw [hsplit]; simp
  rw [h1, List.map_append] at hnodup
  exact List.disjoint_of_nodup_append hnodup
    (List.mem_map.mpr ⟨inp, hinp, heq.symm⟩)
    (List.mem_map.mpr ⟨b, by simp, rfl⟩)

lemma id_of_mem_flatten_segments (l : List (BuildJob × Env)) (e : WEvent)
    (he : e ∈ (l.map jobSegment).flatten) :
    ∃ inp ∈ l, e.id = inp.1.build_id := by
  simp only [List.mem_flatten, List.mem_map] at he
  obtain ⟨seg, ⟨inp, hinp, rfl⟩, hes⟩ := he
  exact ⟨inp, hinp, id_of_mem_jobSegment inp e hes⟩

/-- C2: with pairwise distinct job ids, for every pair of submissions
where `a` precedes `b` in submission order, the worker trace splits into a
prefix containing a terminal-status assignment to `a` and containing no
event of `b` at all (in particular `b` has not entered Building, so jobs
begin in strict FIFO order only after the predecessor's terminal state);
moreover the `current_job` pointer trace is exactly begin/end strictly
alternating per job in submission order, and along every prefix of it at
most one job is running at a time. -/
theorem worker_fifo_serialized (inputs : List (BuildJob × Env))
    (hnodup : (inputs.map fun p => p.1.build_id).Nodup) :
    (∀ xs a ys b zs, inputs = xs ++ a :: (ys ++ b :: zs) →
      ∃ u v, workerTrace inputs = u ++ v ∧
        (∃ s, BuildStatus.isTerminal s = true ∧
          WEvent.jobEvent a.1.build_id (.setStatus s) ∈ u) ∧
        (∀ e, WEvent.jobEvent b.1.build_id e ∉ u) ∧
        WEvent.beginJob b.1.build_id ∉ u) ∧
    pointerPairs (workerTrace inputs) =
      (inputs.map fun p =>
        [(p.1.build_id, true), (p.1.build_id, false)]).flatten ∧
    (∀ p, p <+: pointerPairs (workerTrace inputs) →
      (runningAfter [] p).length ≤ 1) := by
  refine ⟨?_, pointerPairs_workerTrace inputs, ?_⟩
  · intro xs a ys b zs hsplit
    refine ⟨((xs ++ [a]).map jobSegment).flatten,
      ((ys ++ b :: zs).map jobSegment).flatten, ?_, ?_, ?_, ?_⟩
    · rw [hsplit, workerTrace, show xs ++ a :: (ys ++ b :: zs) =
        (xs ++ [a]) ++ (ys ++ b :: zs) by simp]
      rw [List.map_append, List.flatten_append]
    · obtain ⟨-, -, t, ht, hse, -⟩ := processJob_shape a.2 a.1
      refine ⟨t, by rcases ht with rfl | rfl <;> rfl, ?_⟩
      have hmem : Event.setStatus t ∈ (processJob a.2 a.1).2 :=
        setStatus_mem_of_mem_statusEvents _ t (by rw [hse]; simp)
      have hseg : WEvent.jobEvent a.1.build_id (.setStatus t) ∈
          jobSegment a := by
        simp only [jobSegment, List.mem_cons, List.mem_append,
          List.mem_map]
        exact Or.inr (Or.inl ⟨_, hmem, rfl⟩)
      simp only [List.mem_flatten, List.mem_map]
      exact ⟨jobSegment a, ⟨a, by simp, rfl⟩, hseg⟩
    · intro ev hev
      obtain ⟨inp, hinp, hid⟩ := id_of_mem_flatten_segments _ _ hev
      exact nodup_front_disjoint inputs xs a ys b zs hsplit hnodup
        inp hinp hid
    · intro hev
      obtain ⟨inp, hinp, hid⟩ := id_of_mem_flatten_segments _ _ hev
      exact nodup_front_disjoint inputs xs a ys b zs hsplit hnodup
        inp hinp hid
  · intro p hp
    rw [pointerPairs_workerTrace] at hp
    refine runningAfter_pairs_bound (inputs.map fun p => p.1.build_id) p ?_
    rw [List.map_map]
    exact hp

/-- Witness for C2: two jobs with ids `a` and `b`; the pointer trace is
begin/end of `a` then begin/end of `b`, and at most one job runs at any
prefix. -/
theorem worker_fifo_serialized_witness :
    (([((mkBuildJob ["x"] "h" "/cfg/h" "a"), ({} : Env)),
        ((mkBuildJob ["y"] "h" "/cfg/h" "b"), ({} : Env))].map
      fun p => p.1.build_id).Nodup) ∧
    pointerPairs (workerTrace
        [((mkBuildJob ["x"] "h" "/cfg/h" "a"), ({} : Env)),
         ((mkBuildJob ["y"] "h" "/cfg/h" "b"), ({} : Env))]) =
      [("a", true), ("a", false), ("b", true), ("b", false)] ∧
    (runningAfter [] (pointerPairs (workerTrace
        [((mkBuildJob ["x"] "h" "/cfg/h" "a"), ({} : Env)),
         ((mkBuildJob ["y"] "h" "/cfg/h" "b"), ({} : Env))]))).length ≤
      1 := by
  have h := worker_fifo_serialized
    [((mkBuildJob ["x"] "h" "/cfg/h" "a"), ({} : Env)),
     ((mkBuildJob ["y"] "h" "/cfg/h" "b"), ({} : Env))] (by decide)
  refine ⟨by decide, ?_, h.2.2 _ (List.prefix_refl _)⟩
  rw [h.2.1]
  decide

lemma runBuildAfterSync_emerge_error (env : Env) (job : BuildJob)
    (evs : List Event) (e : String) (h : env.emergeResult = .error e) :
    runBuildAfterSync env job evs =
      ⟨job, evs ++ [.runCmd (emergeCmd job.packages)], some e⟩ := by
  simp [runBuildAfterSync, h]

lemma runBuildAfterSync_ok0_empty (env : Env) (job : BuildJob)
    (evs : List Event) (h0 : env.emergeResult = .ok 0)
    (hemp : (binpkgDiff env).isEmpty = true) :
    runBuildAfterSync env job evs =
      ⟨{ job with
          packages_built := (binpkgDiff env).map relativeToBinpkgs
          status := .complete },
       evs ++ [.runCmd (emergeCmd job.packages), .setStatus .complete],
       none⟩ := by
  simp [runBuildAfterSync, h0, hemp]

lemma runBuildAfterSync_ok0_writeExn (env : Env) (job : BuildJob)
    (evs : List Event) (e : String) (h0 : env.emergeResult = .ok 0)
    (hne : (binpkgDiff env).isEmpty = false)
    (hw : env.artifactWriteExn = some e) :
    runBuildAfterSync env job evs =
      ⟨{ job with
          packages_built := (binpkgDiff env).map relativeToBinpkgs },
       evs ++ [.runCmd (emergeCmd job.packages)], some e⟩ := by
  simp [runBuildAfterSync, h0, hne, hw]

lemma runBuildAfterSync_ok0_statExn (env : Env) (job : BuildJob)
    (evs : List Event) (e : String) (h0 : env.emergeResult = .ok 0)
    (hne : (binpkgDiff env).isEmpty = false)
    (hw : env.artifactWriteExn = none)
    (hs : env.artifactStatExn = some e) :
    runBuildAfterSync env job evs =
      ⟨{ job with
          packages_built := (binpkgDiff env).map relativeToBinpkgs
          artifact_path := some (artifactPathFor job.build_id) },
       evs ++ [.runCmd (emergeCmd job.packages),
         .createArtifact ((binpkgDiff env).map relativeToBinpkgs),
         .setArtifactPath (artifactPathFor job.build_id)], some e⟩ := by
  simp [runBuildAfterSync, h0, hne, hw, hs]

lemma runBuildAfterSync_ok0_artifact (env : Env) (job : BuildJob)
    (evs : List Event) (h0 : env.emergeResult = .ok 0)
    (hne : (binpkgDiff env).isEmpty = false)
    (hw : env.artifactWriteExn = none)
    (hs : env.artifactStatExn = none) :
    runBuildAfterSync env job evs =
      ⟨{ job with
          packages_built := (binpkgDiff env).map relativeToBinpkgs
          artifact_path := some (artifactPathFor job.build_id)
          status := .complete },
       evs ++ [.runCmd (emergeCmd job.packages),
         .createArtifact ((binpkgDiff env).map relativeToBinpkgs),
         .setArtifactPath (artifactPathFor job.build_id),
         .setStatus .complete], none⟩ := by
  simp [runBuildAfterSync, h0, hne, hw, hs]

lemma produced_fields_reached (env : Env) (jm : BuildJob)
    (hreach : reachesBuildCmd env) (hpb : jm.packages_built = [])
    (hap : jm.artifact_path = none) :
    ((processJob env jm).1.artifact_path ≠ none →
      (processJob env jm).1.status = .complete ∨
        env.artifactStatExn ≠ none) ∧
    ((processJob env jm).1.packages_built ≠ [] →
      (processJob env jm).1.status = .complete ∨
        env.artifactWriteExn ≠ none ∨ env.artifactStatExn ≠ none) := by
  have hrb := runBuild_reached env jm hreach
  cases hres : env.emergeResult with
  | error e =>
    rw [runBuildAfterSync_emerge_error env _ (preEvents env) e hres] at hrb
    have hp := processJob_of_exn_some env jm e (by rw [hrb])
    rw [hrb] at hp
    constructor <;> simp [hp, hpb, hap]
  | ok r =>
    by_cases hr0 : r = 0
    · subst hr0
      cases hemp : (binpkgDiff env).isEmpty with
      | true =>
        rw [runBuildAfterSync_ok0_empty env _ (preEvents env) hres hemp]
          at hrb
        have hp := processJob_of_exn_none env jm (by rw [hrb])
        rw [hrb] at hp
        constructor <;> simp [hp]
      | false =>
        cases hw : env.artifactWriteExn with
        | some e =>
          rw [runBuildAfterSync_ok0_writeExn env _ (preEvents env) e hres
            hemp hw] at hrb
          have hp := processJob_of_exn_some env jm e (by rw [hrb])
          rw [hrb] at hp
          constructor <;> simp [hp, hap, hw]
        | none =>
          cases hs : env.artifactStatExn with
          | some e =>
            rw [runBuildAfterSync_ok0_statExn env _ (preEvents env) e hres
              hemp hw hs] at hrb
            have hp := processJob_of_exn_some env jm e (by rw [hrb])
            rw [hrb] at hp
            constructor <;> simp [hp, hs]
          | none =>
            rw [runBuildAfterSync_ok0_artifact env _ (preEvents env) hres
              hemp hw hs] at hrb
            have hp := processJob_of_exn_none env jm (by rw [hrb])
            rw [hrb] at hp
            constructor <;> simp [hp]
    · rw [runBuildAfterSync_nonzero env _ (preEvents env) r hres hr0]
        at hrb
      have hp := processJob_of_exn_none env jm (by rw [hrb])
      rw [hrb] at hp
      constructor <;> simp [hp, hpb, hap]

/-- C4 counterexample: a build whose `emerge` succeeds and produces one
new binpkg but whose artifact packaging raises ends `FAILED` with a
nonempty `packages_built` — a Failed job with a nonempty produced-package
list, contradicting the claim. -/
theorem produced_fields_counterexample :
    (processJob
      ({ tsExists := true
         binpkgsAfter := ["/var/cache/binpkgs/a.gpkg.tar"]
         artifactWriteExn := some "No space left on device" } : Env)
      (mkBuildJob ["app-misc/foo"] "h" "/cfg/h" "b1")).1.status =
      .failed ∧
    (processJob
      ({ tsExists := true
         binpkgsAfter := ["/var/cache/binpkgs/a.gpkg.tar"]
         artifactWriteExn := some "No space left on device" } : Env)
      (mkBuildJob ["app-misc/foo"] "h" "/cfg/h" "b1")).1.packages_built =
      ["a.gpkg.tar"] :=
  ⟨by decide, by decide⟩

/-- C4 (amended): for every job that starts with empty produced fields,
`packages_built` and `artifact_path` are populated only if the job's
final status is `COMPLETE`, except when an exception during artifact
packaging (or during its final size-logging, after the archive is
written) aborts an otherwise-successful build: such a job ends `FAILED`
but may retain the nonempty `packages_built` recorded before packaging —
and, for a failure in the final logging step only, a set
`artifact_path`. -/
theorem produced_fields_only_when_complete (env : Env) (job : BuildJob)
    (hpb : job.packages_built = []) (hap : job.artifact_path = none) :
    ((processJob env job).1.artifact_path ≠ none →
      (processJob env job).1.status = .complete ∨
        env.artifactStatExn ≠ none) ∧
    ((processJob env job).1.packages_built ≠ [] →
      (processJob env job).1.status = .complete ∨
        env.artifactWriteExn ≠ none ∨ env.artifactStatExn ≠ none) := by
  cases happ : env.applyConfigExn with
  | some e =>
    have hrb : runBuild env job =
        ⟨{ job with status := .building, started_at := some env.nowStart },
         [.setStatus .building, .setStartedAt env.nowStart], some e⟩ := by
      simp [runBuild, happ]
    have hp := processJob_of_exn_some env job e (by rw [hrb])
    rw [hrb] at hp
    constructor <;> simp [hp, hpb, hap]
  | none =>
    cases hskip : skipsSync env with
    | true =>
      exact produced_fields_reached env job ⟨happ, Or.inl hskip⟩ hpb hap
    | false =>
      cases hsy : env.syncResult with
      | ok c =>
        exact produced_fields_reached env job ⟨happ, Or.inr ⟨c, hsy⟩⟩
          hpb hap
      | error e =>
        have hrb : runBuild env job =
            ⟨{ job with
                status := .building
                started_at := some env.nowStart },
             [.setStatus .building, .setStartedAt env.nowStart,
              .runCmd syncCmd], some e⟩ := by
          simp [runBuild, happ, hskip, hsy]
        have hp := processJob_of_exn_some env job e (by rw [hrb])
        rw [hrb] at hp
        constructor <;> simp [hp, hpb, hap]

/-- Witness for C4's amended theorem: a fully successful one-package
build has nonempty `packages_built` and is indeed `COMPLETE`. -/
theorem produced_fields_only_when_complete_witness :
    (mkBuildJob ["app-misc/foo"] "h" "/cfg/h" "b1").packages_built =
      [] ∧
    (mkBuildJob ["app-misc/foo"] "h" "/cfg/h" "b1").artifact_path =
      none ∧
    ((processJob
        ({ tsExists := true
           binpkgsAfter := ["/var/cache/binpkgs/a.gpkg.tar"] } : Env)
        (mkBuildJob ["app-misc/foo"] "h" "/cfg/h" "b1")).1.status =
        .complete ∨
      Env.artifactWriteExn
        ({ tsExists := true
           binpkgsAfter := ["/var/cache/binpkgs/a.gpkg.tar"] } : Env) ≠
        none ∨
      Env.artifactStatExn
        ({ tsExists := true
           binpkgsAfter := ["/var/cache/binpkgs/a.gpkg.tar"] } : Env) ≠
        none) := by
  have h := produced_fields_only_when_complete
    ({ tsExists := true
       binpkgsAfter := ["/var/cache/binpkgs/a.gpkg.tar"] } : Env)
    (mkBuildJob ["app-misc/foo"] "h" "/cfg/h" "b1") rfl rfl
  exact ⟨rfl, rfl, h.2 (by decide)⟩

/-- C5: for every successful build — configuration staging and any sync
step succeed, the build command exits 0, and artifact packaging raises no
exception — an artifact is created if and only if the output-cache diff
(after − before) is nonempty; when created it contains exactly the diff
paths, each stored under its name relative to the output-cache root, and
its location is recorded on the job; when the diff is empty the job still
ends `COMPLETE` with `artifact_path` unset. -/
theorem artifact_iff_nonempty_diff (env : Env) (packages : List String)
    (config_hash config_path build_id : String)
    (hreach : reachesBuildCmd env) (h0 : env.emergeResult = .ok 0)
    (hw : env.artifactWriteExn = none) (hs : env.artifactStatExn = none) :
    (processJob env (mkBuildJob packages config_hash config_path
        build_id)).1.status = .complete ∧
    (binpkgDiff env = [] →
      (processJob env (mkBuildJob packages config_hash config_path
          build_id)).1.artifact_path = none ∧
      ∀ ps, Event.createArtifact ps ∉
        (processJob env (mkBuildJob packages config_hash config_path
          build_id)).2) ∧
    (binpkgDiff env ≠ [] →
      (processJob env (mkBuildJob packages config_hash config_path
          build_id)).1.artifact_path = some (artifactPathFor build_id) ∧
      (processJob env (mkBuildJob packages config_hash config_path
          build_id)).1.packages_built =
        (binpkgDiff env).map relativeToBinpkgs ∧
      Event.createArtifact ((binpkgDiff env).map relativeToBinpkgs) ∈
        (processJob env (mkBuildJob packages config_hash config_path
          build_id)).2 ∧
      ∀ ps, Event.createArtifact ps ∈
        (processJob env (mkBuildJob packages config_hash config_path
          build_id)).2 →
        ps = (binpkgDiff env).map relativeToBinpkgs) := by
  have hrb := runBuild_reached env
    (mkBuildJob packages config_hash config_path build_id) hreach
  by_cases hemp : binpkgDiff env = []
  · have hempb : (binpkgDiff env).isEmpty = true := by simp [hemp]
    rw [runBuildAfterSync_ok0_empty env _ (preEvents env) h0 hempb] at hrb
    have hp := processJob_of_exn_none env
      (mkBuildJob packages config_hash config_path build_id)
      (by rw [hrb])
    rw [hrb] at hp
    refine ⟨by simp [hp], fun _ => ⟨by rw [hp]; simp [mkBuildJob], ?_⟩,
      fun hne => absurd hemp hne⟩
    intro ps hps
    rw [hp] at hps
    revert hps
    cases hskipb : skipsSync env <;> simp [preEvents, hskipb]
  · have hneb : (binpkgDiff env).isEmpty = false := by
      cases hq : (binpkgDiff env).isEmpty with
      | false => rfl
      | true => exact absurd (List.isEmpty_iff.mp hq) hemp
    rw [runBuildAfterSync_ok0_artifact env _ (preEvents env) h0 hneb hw hs]
      at hrb
    have hp := processJob_of_exn_none env
      (mkBuildJob packages config_hash config_path build_id)
      (by rw [hrb])
    rw [hrb] at hp
    refine ⟨by simp [hp], fun h => absurd h hemp,
      fun _ => ⟨by rw [hp]; simp [mkBuildJob], by simp [hp], ?_, ?_⟩⟩
    · rw [hp]
      simp
    · intro ps hps
      rw [hp] at hps
      revert hps
      cases hskipb : skipsSync env <;> simp [preEvents, hskipb]

/-- Witness for C5: a successful build producing one new binpkg records
its relative path and the artifact location. -/
theorem artifact_iff_nonempty_diff_witness :
    reachesBuildCmd
      ({ tsExists := true
         binpkgsAfter := ["/var/cache/binpkgs/x/a.gpkg.tar"] } : Env) ∧
    (processJob
        ({ tsExists := true
           binpkgsAfter := ["/var/cache/binpkgs/x/a.gpkg.tar"] } : Env)
        (mkBuildJob ["app-misc/foo"] "h" "/cfg/h" "b1")).1.status =
      .complete ∧
    (processJob
        ({ tsExists := true
           binpkgsAfter := ["/var/cache/binpkgs/x/a.gpkg.tar"] } : Env)
        (mkBuildJob ["app-misc/foo"] "h" "/cfg/h" "b1")).1.artifact_path =
      some "/var/cache/e4e/artifacts/b1.tar" ∧
    (processJob
        ({ tsExists := true
           binpkgsAfter := ["/var/cache/binpkgs/x/a.gpkg.tar"] } : Env)
        (mkBuildJob ["app-misc/foo"] "h" "/cfg/h" "b1")).1.packages_built =
      ["x/a.gpkg.tar"] := by
  have h := artifact_iff_nonempty_diff
    ({ tsExists := true
       binpkgsAfter := ["/var/cache/binpkgs/x/a.gpkg.tar"] } : Env)
    ["app-misc/foo"] "h" "/cfg/h" "b1"
    ⟨rfl, Or.inl (by decide)⟩ rfl rfl rfl
  refine ⟨⟨rfl, Or.inl (by decide)⟩, h.1, ?_, ?_⟩
  · rw [(h.2.2 (by decide)).1]
    exact congrArg some (by decide)
  · rw [(h.2.2 (by decide)).2.1]
    decide

lemma mergeOne_dir (live : List (String × FSNode)) (item : String × FSNode)
    (hdot : ¬(item.1 = "." ∨ item.1 = "..")) :
    mergeOne (some (.dir live)) item =
      .ok (some (.dir ((item.1, item.2) :: removeEntry live item.1))) := by
  obtain ⟨n, node⟩ := item
  cases node <;> simp [mergeOne, hdot]

lemma removeEntries_cons_key (live : List (String × FSNode))
    (a : String × FSNode) (ns : List String) (ha : a.1 ∉ ns) :
    removeEntries ((a.1, a.2) :: removeEntry live a.1) ns =
      (a.1, a.2) :: removeEntries live (a.1 :: ns) := by
  have hca : ns.contains a.1 = false := by
    simpa using ha
  simp only [removeEntries, removeEntry, List.filter_cons, hca,
    Bool.not_false, if_true, List.filter_filter]
  congr 1
  apply List.filter_congr
  intro x hx
  cases hc1 : (x.1 == a.1) <;> cases hc2 : ns.contains x.1 <;>
    simp_all [List.contains_cons]

lemma mergeEntries_dir (cfg : List (String × FSNode))
    (live : List (String × FSNode))
    (hdot : ∀ p ∈ cfg, ¬(p.1 = "." ∨ p.1 = ".."))
    (hnodup : (cfg.map Prod.fst).Nodup) :
    mergeEntries (some (.dir live)) cfg =
      (some (.dir (cfg.reverse ++
        removeEntries live (cfg.map Prod.fst))), none) := by
  induction cfg generalizing live with
  | nil => simp [mergeEntries, removeEntries]
  | cons a rest ih =>
    have hda := hdot a (by simp)
    have hmo := mergeOne_dir live a hda
    simp only [mergeEntries, hmo]
    rw [ih ((a.1, a.2) :: removeEntry live a.1)
      (fun p hp => hdot p (by simp [hp])) (by
        simpa using hnodup.of_cons)]
    have ha1 : a.1 ∉ rest.map Prod.fst := by
      simp only [List.map_cons, List.nodup_cons] at hnodup
      exact hnodup.1
    rw [removeEntries_cons_key live a (rest.map Prod.fst) ha1]
    simp

/-- C8: for every application of a job's configuration onto a live
`/etc/portage` directory: the prior live tree is first copied to the
job-scoped backup path; then, if the configuration contains the
`etc/portage` subpath, the live root is replaced wholesale by a copy of
that subtree; otherwise every top-level entry of the configuration (none
of which is named `.` or `..`, and whose names are distinct, as directory
listings are) is merged into the live root — config entries replace
same-named live entries (symlink and file nodes copied verbatim) and all
other live entries survive. -/
theorem apply_config_spec (live : List (String × FSNode))
    (bks : List (String × FSNode)) (config : List (String × FSNode))
    (build_id : String)
    (hdot : ∀ p ∈ config, ¬(p.1 = "." ∨ p.1 = ".."))
    (hnodup : (config.map Prod.fst).Nodup) :
    ((backupPath build_id, FSNode.dir live) ∈
      (applyConfig ⟨some (.dir live), bks⟩ config build_id).1.backups) ∧
    (∀ es, configEtcPortage config = some (.dir es) →
      (applyConfig ⟨some (.dir live), bks⟩ config build_id).2 = none ∧
      (applyConfig ⟨some (.dir live), bks⟩ config build_id).1.portage =
        some (.dir es)) ∧
    (configEtcPortage config = none →
      (applyConfig ⟨some (.dir live), bks⟩ config build_id).2 = none ∧
      (applyConfig ⟨some (.dir live), bks⟩ config build_id).1.portage =
        some (.dir (config.reverse ++
          removeEntries live (config.map Prod.fst)))) := by
  cases hcep : configEtcPortage config with
  | none =>
    have hme := mergeEntries_dir config live hdot hnodup
    refine ⟨?_, ?_, ?_⟩
    · simp [applyConfig, hcep, hme]
    · intro es hes
      exact absurd hes (by simp)
    · intro _
      constructor <;> simp [applyConfig, hcep, hme]
  | some node =>
    cases node with
    | dir es =>
      refine ⟨by simp [applyConfig, hcep], ?_,
        fun h => absurd h (by simp)⟩
      intro es' hes'
      have heq : es = es' := by
        injection hes' with h1
        injection h1
      subst heq
      constructor <;> simp [applyConfig, hcep]
    | file d =>
      refine ⟨by simp [applyConfig, hcep], ?_,
        fun h => absurd h (by simp)⟩
      intro es' hes'
      exact absurd hes' (by simp)
    | symlink t =>
      refine ⟨by simp [applyConfig, hcep], ?_,
        fun h => absurd h (by simp)⟩
      intro es' hes'
      exact absurd hes' (by simp)

/-- Witness for C8 at a concrete live tree and a config without the
`etc/portage` subpath: the backup is recorded under the job's id and the
merge result replaces the same-named entry and keeps the others. -/
theorem apply_config_spec_witness :
    ((backupPath "job-1",
        FSNode.dir [("make.conf", FSNode.file 0),
          ("package.use", FSNode.dir [])]) ∈
      (applyConfig
        ⟨some (.dir [("make.conf", FSNode.file 0),
            ("package.use", FSNode.dir [])]), []⟩
        [("package.use", FSNode.dir [("custom", FSNode.file 1)]),
         ("env", FSNode.file 2)] "job-1").1.backups) ∧
    (applyConfig
        ⟨some (.dir [("make.conf", FSNode.file 0),
            ("package.use", FSNode.dir [])]), []⟩
        [("package.use", FSNode.dir [("custom", FSNode.file 1)]),
         ("env", FSNode.file 2)] "job-1").2 = none ∧
    (applyConfig
        ⟨some (.dir [("make.conf", FSNode.file 0),
            ("package.use", FSNode.dir [])]), []⟩
        [("package.use", FSNode.dir [("custom", FSNode.file 1)]),
         ("env", FSNode.file 2)] "job-1").1.portage =
      some (.dir [("env", FSNode.file 2),
        ("package.use", FSNode.dir [("custom", FSNode.file 1)]),
        ("make.conf", FSNode.file 0)]) := by
  have h := apply_config_spec
    [("make.conf", FSNode.file 0), ("package.use", FSNode.dir [])] []
    [("package.use", FSNode.dir [("custom", FSNode.file 1)]),
     ("env", FSNode.file 2)] "job-1" (by decide) (by decide)
  exact ⟨h.1, (h.2.2 rfl).1, ((h.2.2 rfl).2).trans rfl⟩

end E4E
